import Mathlib

/-!
Verification of the loomstr template engine.

A shallow embedding of the loomstr template parser, filter registry and
evaluation engine (sources: `src/parser.ts`, `src/template.ts`,
`src/filters.ts`, `src/utils.ts`), together with theorems settling the
frozen claims about the engine.

Modelling conventions:
* JavaScript values are modelled by the inductive `Value`
  (null, undefined, boolean, number, string, array, object).
  Numbers are modelled as integers; the claims under verification only
  exercise integer-valued numbers, and the string-to-number conversions
  model the decimal (sign, digits, optional fraction) forms of
  JavaScript `Number`, which covers every numeric literal the engine's
  callers in the claims use.
* Strings are Lean `String`s; character classification mirrors the
  source's `charCodeAt` comparisons.
* JavaScript exceptions are modelled by `Except String`; a thrown
  `Error(msg)` is `.error msg`.
* The imperative character loops of the parser are modelled as
  fuel-indexed structural recursions; the public entry points supply
  fuel strictly larger than the input length, which the loops (each
  iteration consumes at least one character) never exhaust.
-/

/-- Character predicate for `charCodeAt(i) <= 32`, the parser's notion of
skippable whitespace. -/
def isWsCode (c : Char) : Bool := c.toNat ≤ 32

/-- `isIdentStart` from `parser.ts`: `A-Z`, `a-z`, `_`. -/
def isIdentStart (c : Char) : Bool :=
  (65 ≤ c.toNat ∧ c.toNat ≤ 90) ∨ (97 ≤ c.toNat ∧ c.toNat ≤ 122) ∨ c.toNat = 95

/-- `isIdent` from `parser.ts`: ident start or `0-9`. -/
def isIdent (c : Char) : Bool :=
  isIdentStart c ∨ (48 ≤ c.toNat ∧ c.toNat ≤ 57)

/-- Whitespace recognised by JavaScript `String.prototype.trim` (the
common subset: space, tab, newline, carriage return, vertical tab,
form feed). -/
def isJsTrimWs (c : Char) : Bool :=
  c = ' ' ∨ c = '\t' ∨ c = '\n' ∨ c = '\r' ∨ c.toNat = 11 ∨ c.toNat = 12

/-- JavaScript `trim()` on a character list. -/
def jsTrimList (l : List Char) : List Char :=
  ((l.dropWhile isJsTrimWs).reverse.dropWhile isJsTrimWs).reverse

/-- JavaScript `trim()` on a string. -/
def jsTrim (s : String) : String := String.mk (jsTrimList s.data)

/-- The open-brace character. -/
def braceOpen : Char := Char.ofNat 123

/-- The close-brace character. -/
def braceClose : Char := Char.ofNat 125

/-- `decodeTextEscape` from `parser.ts`: decode standard escapes for TEXT
(outside slots); an unknown escaped character becomes itself. -/
def decodeTextEscape (next : Char) : Char :=
  if next = 'n' then '\n'
  else if next = 'r' then '\r'
  else if next = 't' then '\t'
  else if next = 'b' then Char.ofNat 8
  else if next = 'f' then Char.ofNat 12
  else if next = 'v' then Char.ofNat 11
  else if next = '0' then Char.ofNat 0
  else if next = '\\' then '\\'
  else if next = braceOpen then braceOpen
  else if next = braceClose then braceClose
  else if next = '"' then '"'
  else if next = '\'' then '\''
  else next

/-- `decodeArgEscape` from `parser.ts`: like `decodeTextEscape` but also
decodes an escaped comma or hash. -/
def decodeArgEscape (next : Char) : Char :=
  if next = ',' then ','
  else if next = '#' then '#'
  else decodeTextEscape next

/-- The loop body of `decodeArgString`: a backslash that is last in the
string is kept, otherwise it decodes the following character. -/
def decodeArgList : List Char → List Char
  | [] => []
  | c :: rest =>
    if c = '\\' then
      match rest with
      | [] => [c]
      | c2 :: rest2 => decodeArgEscape c2 :: decodeArgList rest2
    else c :: decodeArgList rest

/-- `decodeArgString` from `parser.ts`, including its no-backslash fast
path (which is semantics-preserving). -/
def decodeArgString (s : String) : String :=
  if '\\' ∈ s.data then String.mk (decodeArgList s.data) else s

/-- Result classification of JavaScript `Number(string)`:
not finite, a finite integer, or finite but fractional (carrying its
floor, which determines the integer comparisons the filters perform). -/
inductive JSNum where
  | nan : JSNum
  | int (v : Int) : JSNum
  | nonint (floor : Int) : JSNum
deriving DecidableEq, Repr

/-- Negation on the classification (`floor (-x) = -(floor x) - 1` for
non-integral `x`). -/
def JSNum.neg : JSNum → JSNum
  | .nan => .nan
  | .int v => .int (-v)
  | .nonint f => .nonint (-f - 1)

/-- Digits of a decimal literal as a natural number. -/
def digitsVal (l : List Char) : Nat :=
  l.foldl (fun acc c => acc * 10 + (c.toNat - 48)) 0

/-- Parse an unsigned decimal literal (`digits`, `digits.digits`,
`digits.`, `.digits`). -/
def parseDecimal (l : List Char) : JSNum :=
  let intPart := l.takeWhile Char.isDigit
  let rest := l.dropWhile Char.isDigit
  match rest with
  | [] => if intPart = [] then .nan else .int (digitsVal intPart)
  | '.' :: fracPart =>
    if fracPart.all Char.isDigit ∧ (intPart ≠ [] ∨ fracPart ≠ []) then
      if fracPart.all (· = '0') then .int (digitsVal intPart)
      else .nonint (digitsVal intPart)
    else .nan
  | _ => .nan

/-- JavaScript `Number(string)` restricted to decimal notation: the
string is trimmed, the empty string converts to `0`, an optional sign
precedes the digits.  (Exponent and hex notations are outside the model;
no claim exercises them.) -/
def jsNumberOf (s : String) : JSNum :=
  match jsTrimList s.data with
  | [] => .int 0
  | '-' :: rest => (parseDecimal rest).neg
  | '+' :: rest => parseDecimal rest
  | l => parseDecimal l

/-- JavaScript values as handled by the engine. -/
inductive Value where
  | undefined : Value
  | vnull : Value
  | bool (b : Bool) : Value
  | num (n : Int) : Value
  | str (s : String) : Value
  | arr (elems : List Value) : Value
  | obj (fields : List (String × Value)) : Value

/-- JavaScript `String(v)`; arrays stringify as their elements joined by
commas with null/undefined elements becoming empty, objects as
`[object Object]`. -/
def jsToString : Value → String
  | .undefined => "undefined"
  | .vnull => "null"
  | .bool true => "true"
  | .bool false => "false"
  | .num n => toString n
  | .str s => s
  | .arr l => String.intercalate "," (jsArrElems l)
  | .obj _ => "[object Object]"
where
  /-- Element conversion used by `Array.prototype.toString`. -/
  jsArrElems : List Value → List String
  | [] => []
  | .undefined :: rest => "" :: jsArrElems rest
  | .vnull :: rest => "" :: jsArrElems rest
  | v :: rest => jsToString v :: jsArrElems rest

/-- `String.prototype.repeat` for a string and a count. -/
def strRepeat (s : String) (n : Nat) : String :=
  match n with
  | 0 => ""
  | k + 1 => s ++ strRepeat s k

/-- Take the first character of a string (`slice(0, 1)`). -/
def strTake1 (s : String) : String :=
  match s.data with
  | [] => ""
  | c :: _ => String.singleton c

/-- Hexadecimal digit character. -/
def hexDigit (n : Nat) : Char :=
  if n < 10 then Char.ofNat (48 + n) else Char.ofNat (87 + n)

/-- Two-digit lowercase hex rendering of a byte. -/
def hex2 (n : Nat) : String :=
  (hexDigit (n / 16)).toString ++ (hexDigit (n % 16)).toString

/-- JSON string-character escaping as performed by `JSON.stringify`. -/
def jsonQuoteChar (c : Char) : String :=
  if c = '"' then "\\\""
  else if c = '\\' then "\\\\"
  else if c = '\n' then "\\n"
  else if c = '\r' then "\\r"
  else if c = '\t' then "\\t"
  else if c.toNat = 8 then "\\b"
  else if c.toNat = 12 then "\\f"
  else if c.toNat < 32 then "\\u00" ++ hex2 c.toNat
  else String.singleton c

/-- JSON quoting of a whole string. -/
def jsonQuote (s : String) : String :=
  "\"" ++ String.join (s.data.map jsonQuoteChar) ++ "\""

/-- Indentation string used by `JSON.stringify` at nesting `depth` with a
`gap`-space indent. -/
def jsonIndent (gap depth : Nat) : String := strRepeat " " (gap * depth)

/-- Bracket assembly for `JSON.stringify` composites: compact when the
gap is zero, one member per line otherwise. -/
def jsonWrap (gap depth : Nat) (opening closing : String) (parts : List String) : String :=
  if parts = [] then opening ++ closing
  else if gap = 0 then opening ++ String.intercalate "," parts ++ closing
  else
    let ind := jsonIndent gap (depth + 1)
    opening ++ "\n" ++ ind ++ String.intercalate (",\n" ++ ind) parts ++ "\n" ++
      jsonIndent gap depth ++ closing

mutual

/-- `JSON.stringify(v, null, gap)` (gap in spaces); `none` models the
JavaScript call returning `undefined` (for `undefined` input). -/
def jsonVal (gap depth : Nat) : Value → Option String
  | .undefined => none
  | .vnull => some "null"
  | .bool true => some "true"
  | .bool false => some "false"
  | .num n => some (toString n)
  | .str s => some (jsonQuote s)
  | .arr l => some (jsonWrap gap depth "[" "]" (jsonArrParts gap (depth + 1) l))
  | .obj fs => some (jsonWrap gap depth "\x7b" "\x7d" (jsonObjParts gap (depth + 1) fs))

/-- Array members: an element serialising to `undefined` becomes `null`. -/
def jsonArrParts (gap depth : Nat) : List Value → List String
  | [] => []
  | v :: rest => (jsonVal gap depth v).getD "null" :: jsonArrParts gap depth rest

/-- Object members: fields serialising to `undefined` are skipped. -/
def jsonObjParts (gap depth : Nat) : List (String × Value) → List String
  | [] => []
  | (k, v) :: rest =>
    match jsonVal gap depth v with
    | none => jsonObjParts gap depth rest
    | some s =>
      (jsonQuote k ++ ":" ++ (if gap = 0 then "" else " ") ++ s) :: jsonObjParts gap depth rest

end

/-- JavaScript `Number(value)` for non-number values (used by `fixed`).
Arrays convert through their string form, objects to NaN. -/
def jsToNumber : Value → JSNum
  | .num n => .int n
  | .vnull => .int 0
  | .undefined => .nan
  | .bool b => .int (if b then 1 else 0)
  | .str s => jsNumberOf s
  | .arr l => jsNumberOf (jsToString (.arr l))
  | .obj _ => .nan

/-- A filter: current value and decoded argument strings in, replacement
value out; a thrown `Error` is `.error`. -/
def FilterFn := Value → List String → Except String Value

/-- `upper` builtin. -/
def upperFilter : FilterFn := fun v _ =>
  .ok (.str (String.mk ((jsToString v).data.map Char.toUpper)))

/-- `lower` builtin. -/
def lowerFilter : FilterFn := fun v _ =>
  .ok (.str (String.mk ((jsToString v).data.map Char.toLower)))

/-- `json` builtin: optional non-negative integer indent; `stringify`
returning `undefined` yields the value `undefined`. -/
def jsonFilter : FilterFn := fun v args =>
  let emit := fun (gap : Nat) =>
    match jsonVal gap 0 v with
    | some s => Except.ok (Value.str s)
    | none => Except.ok Value.undefined
  match args.get? 0 with
  | none => emit 0
  | some indentArg =>
    if indentArg = "" then emit 0
    else
      match jsNumberOf indentArg with
      | .nan => .error ("json: invalid indent \"" ++ indentArg ++ "\"")
      | .nonint _ => .error "json: indent must be a non-negative integer"
      | .int k =>
        if k < 0 then .error "json: indent must be a non-negative integer"
        else emit (min k.toNat 10)

/-- `String.prototype.split('.')`: the list of dot-separated groups
(an empty string splits to one empty group). -/
def splitDots : List Char → List (List Char)
  | [] => [[]]
  | c :: rest =>
    if c = '.' then [] :: splitDots rest
    else
      match splitDots rest with
      | [] => [[c]]
      | g :: gs => (c :: g) :: gs

/-- Array-index parse for a `path` segment: `Number(segment)` must be a
non-negative integer. -/
def parseArrayIndex (seg : String) : Option Nat :=
  match jsNumberOf seg with
  | .int v => if 0 ≤ v then some v.toNat else none
  | _ => none

/-- The traversal loop of the `path` builtin: null/undefined short-circuit
to not-found (`undefined`), arrays index by non-negative integers, objects by
property key, any other value is not-found. -/
def pathTraverse : Value → List String → Value
  | current, [] => current
  | current, seg :: rest =>
    match current with
    | .vnull => .undefined
    | .undefined => .undefined
    | .arr l =>
      match parseArrayIndex seg with
      | none => .undefined
      | some i => pathTraverse (l.getD i .undefined) rest
    | .obj fields =>
      pathTraverse (((fields.find? (fun e => e.1 == seg)).map (·.2)).getD .undefined) rest
    | _ => .undefined

/-- `path` builtin: dot-separated trimmed segments, each non-empty;
not-found returns the fallback argument, defaulting to the empty string. -/
def pathFilter : FilterFn := fun v args =>
  match args.get? 0 with
  | none => .error "path: missing property path argument"
  | some pathArg =>
    if pathArg = "" then .error "path: missing property path argument"
    else
      let rawSegments := (splitDots pathArg.data).map String.mk
      let segments := rawSegments.map jsTrim
      if segments.any (· = "") then
        .error ("path: invalid segment in \"" ++ pathArg ++ "\"")
      else
        .ok (match pathTraverse v segments with
             | .undefined => .str ((args.get? 1).getD "")
             | w => w)

/-- `pad` builtin: appends the first character of the fill argument after
the stringified value up to the target length. -/
def padFilter : FilterFn := fun v args =>
  let lenArg := (args.get? 0).getD "0"
  let fillArg := (args.get? 1).getD " "
  let s := jsToString v
  let fill := strTake1 (if fillArg = "" then " " else fillArg)
  match jsNumberOf lenArg with
  | .nan => .error ("pad: invalid length \"" ++ lenArg ++ "\"")
  | .int len =>
    .ok (.str (if len ≤ (s.length : Int) then s
               else s ++ strRepeat fill (len - (s.length : Int)).toNat))
  | .nonint f =>
    .ok (.str (if f + 1 ≤ (s.length : Int) then s
               else s ++ strRepeat fill (f - (s.length : Int)).toNat))

/-- Fixed-point rendering of an integer with `k` decimal places. -/
def fixedFmt (n : Int) (k : Nat) : String :=
  toString n ++ (if k = 0 then "" else "." ++ strRepeat "0" k)

/-- `fixed` builtin: number (or converted value) to fixed decimal places.
A fractional input is represented by its floor in this model; the claims
under verification exercise only integer values. -/
def fixedFilter : FilterFn := fun v args =>
  let d := (args.get? 0).getD "0"
  let n := jsToNumber v
  match n with
  | .nan => .error ("fixed: non-numeric value " ++ jsToString v)
  | .int m =>
    match jsNumberOf d with
    | .int k =>
      if k < 0 then .error ("fixed: invalid digits \"" ++ d ++ "\"")
      else .ok (.str (fixedFmt m k.toNat))
    | _ => .error ("fixed: invalid digits \"" ++ d ++ "\"")
  | .nonint m =>
    match jsNumberOf d with
    | .int k =>
      if k < 0 then .error ("fixed: invalid digits \"" ++ d ++ "\"")
      else .ok (.str (fixedFmt m k.toNat))
    | _ => .error ("fixed: invalid digits \"" ++ d ++ "\"")

/-- `builtinFilters` from `filters.ts`: the six built-in filters. -/
def builtinFilters (name : String) : Option FilterFn :=
  if name = "upper" then some upperFilter
  else if name = "lower" then some lowerFilter
  else if name = "json" then some jsonFilter
  else if name = "path" then some pathFilter
  else if name = "pad" then some padFilter
  else if name = "fixed" then some fixedFilter
  else none

/-- One filter invocation in a slot's chain: name and decoded arguments. -/
structure FilterSegment where
  name : String
  args : List String
deriving DecidableEq, Repr

/-- A parsed slot: name, first filter name/args (absent when the chain is
empty, mirroring the source's optional fields), and the full chain. -/
structure SlotDescriptor where
  name : String
  filter : Option String
  args : List String
  filters : List FilterSegment
deriving DecidableEq, Repr

/-- Result of `parseTemplate`: literal chunks and slot descriptors. -/
structure Parsed where
  chunks : List String
  slots : List SlotDescriptor
deriving DecidableEq, Repr

/-- Caller-supplied policy: filter overrides, optional transform hook,
optional stringifier. -/
structure TemplatePolicy where
  filters : List (String × FilterFn)
  transform : Option (SlotDescriptor → Value → Value)
  asString : Option (Value → String)

/-- Policy after `resolvePolicy`: total filter lookup (overrides win over
built-ins), transform hook, total stringifier. -/
structure ResolvedPolicy where
  filters : String → Option FilterFn
  transform : Option (SlotDescriptor → Value → Value)
  asString : Value → String

/-- `resolvePolicy` from `filters.ts`: caller filters are merged over the
built-ins, and the stringifier defaults to `String(v)`. -/
def resolvePolicy (p : Option TemplatePolicy) : ResolvedPolicy :=
  match p with
  | none => { filters := builtinFilters, transform := none, asString := jsToString }
  | some pol =>
    { filters := fun n =>
        match (pol.filters.find? (fun e => e.1 == n)).map (·.2) with
        | some f => some f
        | none => builtinFilters n,
      transform := pol.transform,
      asString := pol.asString.getD jsToString }

/-- A data record: string-keyed values (JavaScript object). -/
abbrev Record := List (String × Value)

/-- Property access `record[k]` as an option. -/
def recordLookup (r : Record) (k : String) : Option Value :=
  (r.find? (fun e => e.1 == k)).map (·.2)

/-- `Object.prototype.hasOwnProperty.call(record, k)`. -/
def hasKey (r : Record) (k : String) : Bool :=
  (recordLookup r k).isSome

/-- The object spread of two records as in `{...bound, ...rest}`: keys of
`rest` win. -/
def mergeRecords (bound rest : Record) : Record := rest ++ bound

/-- The per-slot body of `CompiledTemplate.evaluate` after the
`hasOwnProperty` check: raw value, optional transform, then the slot's
(first) filter via the registry. -/
def slotValue (rp : ResolvedPolicy) (record : Record) (slot : SlotDescriptor) :
    Except String Value :=
  let raw := (recordLookup record slot.name).getD .undefined
  let transformed :=
    match rp.transform with
    | some t => t slot raw
    | none => raw
  match slot.filter with
  | some fname =>
    match rp.filters fname with
    | none => .error ("Unknown filter \"" ++ fname ++ "\"")
    | some f => f transformed slot.args
  | none => .ok transformed

/-- `CompiledTemplate.evaluate`: one value per slot in slot order; a
missing record key raises naming the slot. -/
def evaluate (rp : ResolvedPolicy) (record : Record) :
    List SlotDescriptor → Except String (List Value)
  | [] => .ok []
  | slot :: rest =>
    if hasKey record slot.name then
      match slotValue rp record slot with
      | .error e => .error e
      | .ok v => (evaluate rp record rest).map (fun vs => v :: vs)
    else .error ("Missing value for slot \"" ++ slot.name ++ "\"")

/-- The assembly loop of `CompiledTemplate.render`: `k` remaining
iterations, `i` the current slot index, `out` the accumulator; each step
appends the stringified value and `chunks[i+1] ?? ""`. -/
def assemble (stringify : Value → String) (chunks : List String) (values : List Value) :
    Nat → Nat → String → String
  | 0, _, out => out
  | k + 1, i, out =>
    assemble stringify chunks values k (i + 1)
      (out ++ stringify (values.getD i .undefined) ++ (chunks.getD (i + 1) ""))

/-- `CompiledTemplate.render`: evaluate, then interleave starting from
`chunks[0] ?? ""`. -/
def renderParsed (t : Parsed) (record : Record) (p : Option TemplatePolicy) :
    Except String String :=
  let rp := resolvePolicy p
  (evaluate rp record t.slots).map (fun values =>
    assemble rp.asString t.chunks values t.slots.length 0 (t.chunks.getD 0 ""))

/-- Outcome type of `tryRender`: `{ok:true, value}` or `{ok:false, error}`. -/
inductive TryResult where
  | success (value : String) : TryResult
  | failure (error : String) : TryResult
deriving DecidableEq, Repr

/-- `tryRender` from `utils.ts`: wrap the render call, catching any raised
error into a failure result. -/
def tryRender (t : Parsed) (record : Record) (p : Option TemplatePolicy) : TryResult :=
  match renderParsed t record p with
  | .ok s => .success s
  | .error e => .failure e

/-- The `render` closure produced by `bind` in `utils.ts`: merge the bound
record with the caller's, resolve `policy ?? defaultPolicy`, evaluate with
the original slots and assemble with the original chunks. -/
def boundRender (t : Parsed) (bound : Record) (defPolicy : Option TemplatePolicy)
    (rest : Record) (p : Option TemplatePolicy) : Except String String :=
  let rp := resolvePolicy (p.orElse (fun _ => defPolicy))
  (evaluate rp (mergeRecords bound rest) t.slots).map (fun values =>
    assemble rp.asString t.chunks values t.slots.length 0 (t.chunks.getD 0 ""))

/-- `pushArg` from `parseSlotBody`: quoted arguments are decoded verbatim;
unquoted arguments are decoded and kept untrimmed when the decoded
untrimmed and decoded trimmed forms differ in length, else stored as the
decoded trimmed form. -/
def pushArgValue (cur : String) (quotedThisArg : Bool) : String :=
  if quotedThisArg then decodeArgString cur
  else
    let processed := decodeArgString cur
    let trimmed := decodeArgString (jsTrim cur)
    if processed.length ≠ trimmed.length then processed else trimmed

/-- The argument-list loop of `parseSlotBody` (after a `#`): backslash
escapes decode inline, quotes toggle verbatim mode, commas separate
arguments (whitespace after a comma is skipped), an unescaped unquoted
pipe ends the list leaving the pipe unconsumed.  Returns the collected
arguments and the unconsumed suffix. -/
def parseArgsLoop (fuel : Nat) (cs : List Char) (cur : String) (inQuote : Option Char)
    (quotedThisArg : Bool) (out : List String) : List String × List Char :=
  match fuel with
  | 0 => (out, cs)
  | fuel + 1 =>
    match cs with
    | [] => (out ++ [pushArgValue cur quotedThisArg], [])
    | c :: rest =>
      if c = '\\' then
        match rest with
        | [] => (out ++ [pushArgValue cur quotedThisArg], [])
        | c2 :: rest2 =>
          parseArgsLoop fuel rest2 (cur.push (decodeArgEscape c2)) inQuote quotedThisArg out
      else
      match inQuote with
      | some q =>
        if c = q then parseArgsLoop fuel rest cur none quotedThisArg out
        else parseArgsLoop fuel rest (cur.push c) (some q) quotedThisArg out
      | none =>
        if c = '"' ∨ c = '\'' then
          parseArgsLoop fuel rest cur (some c) true out
        else if c = ',' then
          parseArgsLoop fuel (rest.dropWhile isWsCode) "" none false
            (out ++ [pushArgValue cur quotedThisArg])
        else if c = '|' then
          (out ++ [pushArgValue cur quotedThisArg], c :: rest)
        else
          parseArgsLoop fuel rest (cur.push c) none quotedThisArg out

/-- The filter loop of `parseSlotBody`: zero or more
`'|' ident ('#' args)?` repetitions, whitespace skipped around names.
Returns the chain and the unconsumed suffix. -/
def parseFilterChain (fuel : Nat) (cs : List Char) (acc : List FilterSegment) :
    Except String (List FilterSegment × List Char) :=
  match fuel with
  | 0 => .error "out of fuel"
  | fuel + 1 =>
    match cs with
    | [] => .ok (acc, [])
    | c0 :: afterPipe =>
      if c0 = '|' then
      match afterPipe.dropWhile isWsCode with
      | [] => .error "Invalid slot: missing/invalid filter"
      | c :: rest =>
        if isIdentStart c then
          let filterName := String.mk (c :: rest.takeWhile isIdent)
          let cs₂ := (rest.dropWhile isIdent).dropWhile isWsCode
          match cs₂ with
          | '#' :: afterHash =>
            let (args, cs₃) :=
              parseArgsLoop fuel (afterHash.dropWhile isWsCode) "" none false []
            parseFilterChain fuel (cs₃.dropWhile isWsCode)
              (acc ++ [⟨filterName, args⟩])
          | _ =>
            parseFilterChain fuel (cs₂.dropWhile isWsCode) (acc ++ [⟨filterName, []⟩])
        else .error "Invalid slot: missing/invalid filter"
      else .ok (acc, c0 :: afterPipe)

/-- `parseSlotBody` from `parser.ts`: slot name, then the chained filters;
args may only follow a filter, and only whitespace may trail. -/
def parseSlotBody (body : List Char) : Except String SlotDescriptor :=
  match body.dropWhile isWsCode with
  | [] => .error "Invalid slot: missing/invalid name"
  | c :: rest =>
    if isIdentStart c then
      let name := String.mk (c :: rest.takeWhile isIdent)
      let cs₁ := (rest.dropWhile isIdent).dropWhile isWsCode
      match parseFilterChain (body.length + 1) cs₁ [] with
      | .error e => .error e
      | .ok (filters, cs₂) =>
        if filters = [] ∧ cs₂.head? = some '#' then
          .error "Invalid slot: args provided without filter"
        else if cs₂.dropWhile isWsCode ≠ [] then
          .error "Invalid slot: unexpected trailing content"
        else
          match filters with
          | [] => .ok ⟨name, none, [], []⟩
          | first :: _ => .ok ⟨name, some first.name, first.args, filters⟩
    else .error "Invalid slot: missing/invalid name"

/-- The matching-brace search of `parseTemplate`: collect the raw slot
body up to the first unescaped close brace (a backslash skips the next
character, staying part of the body); an unescaped open brace is the
nested-slot error, running out is the unmatched error. -/
def findClose : List Char → Except String (List Char × List Char)
  | [] => .error "Invalid template: unmatched open brace"
  | c :: rest =>
    if c = '\\' then
      match rest with
      | [] => .error "Invalid template: unmatched open brace"
      | c2 :: rest2 =>
        match findClose rest2 with
        | .error e => .error e
        | .ok (body, after) => .ok (c :: c2 :: body, after)
    else if c = braceOpen then .error "Invalid template: nested open brace"
    else if c = braceClose then .ok ([], rest)
    else
      match findClose rest with
      | .error e => .error e
      | .ok (body, after) => .ok (c :: body, after)

/-- The scanner loop of `parseTemplate`: decode text escapes, keep a lone
trailing backslash, flush the text buffer (only when non-empty) before
each slot and at end of input. -/
def scanText (fuel : Nat) (cs : List Char) (buf : List Char)
    (chunks : List String) (slots : List SlotDescriptor) : Except String Parsed :=
  match fuel with
  | 0 => .error "out of fuel"
  | fuel + 1 =>
    match cs with
    | [] => .ok ⟨(if buf = [] then chunks else chunks ++ [String.mk buf]), slots⟩
    | c :: rest =>
      if c = '\\' then
        match rest with
        | [] => scanText fuel [] (buf ++ [c]) chunks slots
        | c2 :: rest2 => scanText fuel rest2 (buf ++ [decodeTextEscape c2]) chunks slots
      else if c = braceOpen then
        let chunks₁ := if buf = [] then chunks else chunks ++ [String.mk buf]
        match findClose rest with
        | .error e => .error e
        | .ok (body, after) =>
          match parseSlotBody body with
          | .error e => .error e
          | .ok slot => scanText fuel after [] chunks₁ (slots ++ [slot])
      else scanText fuel rest (buf ++ [c]) chunks slots

/-- `parseTemplate` from `parser.ts`. -/
def parseTemplate (source : String) : Except String Parsed :=
  scanText (source.length + 1) source.data [] [] []

/-- Interleaving tail: stringified values alternating with
`chunks[i] ?? ""` from chunk position `i` on. -/
def interleaveTail (stringify : Value → String) (chunks : List String) :
    List Value → Nat → String
  | [], _ => ""
  | v :: rest, i =>
    stringify v ++ chunks.getD i "" ++ interleaveTail stringify chunks rest (i + 1)

/-- The chunk/value interleaving
`(chunk[0] ?? "") + v0 + (chunk[1] ?? "") + v1 + ...` where an absent
chunk position reads as the empty string. -/
def interleaveOut (stringify : Value → String) (chunks : List String)
    (values : List Value) : String :=
  chunks.getD 0 "" ++ interleaveTail stringify chunks values 1

/-- Sources containing no unescaped open brace (pure text position
throughout). -/
def noSlotB : List Char → Bool
  | [] => true
  | c :: rest =>
    if c = '\\' then
      match rest with
      | [] => true
      | _ :: rest2 => noSlotB rest2
    else c ≠ braceOpen && noSlotB rest

/-- Text decoding as specified: a backslash followed by a character
decodes through the escape table, a lone trailing backslash is kept
literally, every other character passes through. -/
def decodedText : List Char → List Char
  | [] => []
  | c :: rest =>
    if c = '\\' then
      match rest with
      | [] => [c]
      | c2 :: rest2 => decodeTextEscape c2 :: decodedText rest2
    else c :: decodedText rest

deriving instance DecidableEq for Except

theorem str_append_empty (s : String) : s ++ "" = s := by
  cases s with
  | mk l => show String.mk (l ++ []) = String.mk l; rw [List.append_nil]

theorem str_append_assoc (a b c : String) : a ++ b ++ c = a ++ (b ++ c) := by
  cases a with
  | mk la =>
    cases b with
    | mk lb =>
      cases c with
      | mk lc => show String.mk (la ++ lb ++ lc) = String.mk (la ++ (lb ++ lc))
                 rw [List.append_assoc]

theorem jsTrimList_sublist (l : List Char) : (jsTrimList l).Sublist l := by
  have h1 : ((l.dropWhile isJsTrimWs).reverse.dropWhile isJsTrimWs).Sublist
      (l.dropWhile isJsTrimWs).reverse := List.dropWhile_sublist _
  have h2 := h1.reverse
  rw [List.reverse_reverse] at h2
  exact h2.trans (List.dropWhile_sublist _)

theorem jsTrimList_eq_of_length (l : List Char) (h : (jsTrimList l).length = l.length) :
    jsTrimList l = l :=
  (jsTrimList_sublist l).eq_of_length h

theorem decodeArgString_of_no_backslash (s : String) (h : '\\' ∉ s.data) :
    decodeArgString s = s := by
  unfold decodeArgString
  rw [if_neg h]

theorem unquoted_arg_escape_free_untrimmed (cur : String) (h : '\\' ∉ cur.data) :
    pushArgValue cur false = cur := by
  have hmem : '\\' ∉ (jsTrim cur).data := by
    show '\\' ∉ jsTrimList cur.data
    intro hm
    exact h ((jsTrimList_sublist cur.data).subset hm)
  have hp : decodeArgString cur = cur := decodeArgString_of_no_backslash cur h
  have ht : decodeArgString (jsTrim cur) = jsTrim cur :=
    decodeArgString_of_no_backslash _ hmem
  simp only [pushArgValue, Bool.false_eq_true, if_false, hp, ht]
  by_cases hlen : cur.length ≠ (jsTrim cur).length
  · rw [if_pos hlen]
  · rw [if_neg hlen]
    push_neg at hlen
    have hdl : (jsTrimList cur.data).length = cur.data.length := by
      have : (jsTrim cur).length = cur.length := hlen.symm
      exact this
    have heq := jsTrimList_eq_of_length cur.data hdl
    cases cur with
    | mk l =>
      show String.mk (jsTrimList l) = String.mk l
      rw [heq]

theorem evaluate_length (rp : ResolvedPolicy) (record : Record) :
    ∀ (slots : List SlotDescriptor) (vs : List Value),
      evaluate rp record slots = .ok vs → vs.length = slots.length := by
  intro slots
  induction slots with
  | nil =>
    intro vs h
    simp only [evaluate] at h
    cases h
    rfl
  | cons slot rest ih =>
    intro vs h
    simp only [evaluate] at h
    by_cases hk : hasKey record slot.name = true
    · rw [if_pos hk] at h
      cases hv : slotValue rp record slot with
      | error e => rw [hv] at h; cases h
      | ok v =>
        rw [hv] at h
        cases he : evaluate rp record rest with
        | error e => rw [he] at h; cases h
        | ok vs2 =>
          rw [he] at h
          cases h
          simp [ih vs2 he]
    · rw [if_neg hk] at h; cases h

theorem missing_key_first_error (rp : ResolvedPolicy) (record : Record)
    (slots : List SlotDescriptor)
    (h : ∀ s ∈ slots, hasKey record s.name = true → (slotValue rp record s).isOk = true) :
    match slots.find? (fun s => !(hasKey record s.name)) with
    | some s =>
      evaluate rp record slots = .error ("Missing value for slot \"" ++ s.name ++ "\"")
    | none => (evaluate rp record slots).isOk = true := by
  induction slots with
  | nil => rfl
  | cons slot rest ih =>
    have hrest := ih (fun s hs hk => h s (List.mem_cons_of_mem _ hs) hk)
    by_cases hk : hasKey record slot.name = true
    · have hv : (slotValue rp record slot).isOk = true :=
        h slot (List.mem_cons_self _ _) hk
      obtain ⟨v, hveq⟩ : ∃ v, slotValue rp record slot = .ok v := by
        cases hsv : slotValue rp record slot with
        | error e => rw [hsv] at hv; cases hv
        | ok v => exact ⟨v, rfl⟩
      rw [List.find?_cons_of_neg _ (by simp [hk])]
      cases hfind : rest.find? (fun s => !(hasKey record s.name)) with
      | none =>
        rw [hfind] at hrest
        simp only at hrest
        simp only [evaluate, hk, if_true, hveq]
        cases he : evaluate rp record rest with
        | error e => rw [he] at hrest; cases hrest
        | ok vs => rfl
      | some s =>
        rw [hfind] at hrest
        simp only at hrest
        simp only [evaluate, hk, if_true, hveq, hrest]
        rfl
    · have hb : hasKey record slot.name = false := by
        cases hkk : hasKey record slot.name with
        | true => exact absurd hkk hk
        | false => rfl
      rw [List.find?_cons_of_pos _ (by simp [hb])]
      simp only [evaluate, hb, Bool.false_eq_true, if_false]

theorem tryRender_mirrors_render (t : Parsed) (record : Record) (p : Option TemplatePolicy) :
    (∀ s, renderParsed t record p = .ok s → tryRender t record p = .success s) ∧
    (∀ e, renderParsed t record p = .error e → tryRender t record p = .failure e) := by
  constructor
  · intro s hs
    unfold tryRender
    rw [hs]
  · intro e he
    unfold tryRender
    rw [he]


theorem assemble_eq_interleaveTail (st : Value → String) (ch : List String)
    (vals : List Value) :
    ∀ (k i : Nat) (acc : String), i + k = vals.length →
      assemble st ch vals k i acc = acc ++ interleaveTail st ch (vals.drop i) (i + 1) := by
  intro k
  induction k with
  | zero =>
    intro i acc h
    have hd : vals.drop i = [] := List.drop_eq_nil_of_le (by omega)
    rw [hd]
    show acc = acc ++ interleaveTail st ch [] (i + 1)
    rw [show interleaveTail st ch [] (i + 1) = "" from rfl, str_append_empty]
  | succ k ih =>
    intro i acc h
    have hi : i < vals.length := by omega
    unfold assemble
    rw [ih (i + 1) _ (by omega)]
    rw [List.drop_eq_getElem_cons hi]
    simp only [interleaveTail]
    rw [List.getD_eq_getElem vals Value.undefined hi]
    simp [str_append_assoc]

theorem renderParsed_eq_interleave (t : Parsed) (record : Record) (p : Option TemplatePolicy)
    (vs : List Value) (h : evaluate (resolvePolicy p) record t.slots = .ok vs) :
    renderParsed t record p = .ok (interleaveOut (resolvePolicy p).asString t.chunks vs) := by
  unfold renderParsed
  simp only []
  rw [h]
  have hlen := evaluate_length _ _ _ _ h
  show Except.ok _ = _
  congr 1
  show assemble (resolvePolicy p).asString t.chunks vs t.slots.length 0
      (t.chunks.getD 0 "") = _
  rw [assemble_eq_interleaveTail _ _ _ t.slots.length 0 _ (by omega)]
  rw [List.drop_zero]
  rfl

theorem strMk_ne_empty (l : List Char) (h : l ≠ []) : String.mk l ≠ "" :=
  fun hc => h (congrArg String.data hc)

theorem scanText_invariants :
    ∀ (fuel : Nat) (cs : List Char) (buf : List Char)
      (chunks : List String) (slots : List SlotDescriptor) (r : Parsed),
      scanText fuel cs buf chunks slots = .ok r →
      chunks.length ≤ slots.length →
      (∀ c ∈ chunks, c ≠ "") →
      r.chunks.length ≤ r.slots.length + 1 ∧ ∀ c ∈ r.chunks, c ≠ "" := by
  intro fuel
  induction fuel with
  | zero => intro cs buf chunks slots r h; cases h
  | succ fuel ih =>
    intro cs buf chunks slots r h hle hne
    cases cs with
    | nil =>
      simp only [scanText] at h
      cases h
      by_cases hb : buf = []
      · rw [if_pos hb]
        exact ⟨by simpa using Nat.le_succ_of_le hle, hne⟩
      · rw [if_neg hb]
        constructor
        · simp
          omega
        · intro c hc
          rcases List.mem_append.mp hc with hc1 | hc2
          · exact hne c hc1
          · rw [List.mem_singleton.mp hc2]
            exact strMk_ne_empty buf hb
    | cons c rest =>
      simp only [scanText] at h
      by_cases hc : c = '\\'
      · rw [if_pos hc] at h
        cases rest with
        | nil => exact ih _ _ _ _ _ h hle hne
        | cons c2 rest2 => exact ih _ _ _ _ _ h hle hne
      · rw [if_neg hc] at h
        by_cases hbrace : c = braceOpen
        · rw [if_pos hbrace] at h
          cases hfc : findClose rest with
          | error e => rw [hfc] at h; cases h
          | ok pr =>
            obtain ⟨body, after⟩ := pr
            rw [hfc] at h
            simp only at h
            cases hps : parseSlotBody body with
            | error e => rw [hps] at h; cases h
            | ok slot =>
              rw [hps] at h
              refine ih _ _ _ _ _ h ?_ ?_
              · by_cases hb : buf = []
                · simp [hb]
                  omega
                · simp [hb]
                  omega
              · intro ch hch
                by_cases hb : buf = []
                · rw [if_pos hb] at hch
                  exact hne ch hch
                · rw [if_neg hb] at hch
                  rcases List.mem_append.mp hch with hc1 | hc2
                  · exact hne ch hc1
                  · rw [List.mem_singleton.mp hc2]
                    exact strMk_ne_empty buf hb
        · rw [if_neg hbrace] at h
          exact ih _ _ _ _ _ h hle hne

theorem decodedText_nil : decodedText [] = [] := rfl

theorem decodedText_lone : decodedText ['\\'] = ['\\'] := rfl

theorem decodedText_esc (c2 : Char) (rest2 : List Char) :
    decodedText ('\\' :: c2 :: rest2) = decodeTextEscape c2 :: decodedText rest2 := rfl

theorem decodedText_other (c : Char) (rest : List Char) (hc : c ≠ '\\') :
    decodedText (c :: rest) = c :: decodedText rest := by
  conv =>
    lhs
    unfold decodedText
  rw [if_neg hc]

theorem noSlotB_other (c : Char) (rest : List Char) (hc : c ≠ '\\') :
    noSlotB (c :: rest) = (decide (c ≠ braceOpen) && noSlotB rest) := by
  conv =>
    lhs
    unfold noSlotB
  rw [if_neg hc]

theorem scanText_noSlot :
    ∀ (fuel : Nat) (cs : List Char), cs.length < fuel →
      ∀ (buf : List Char) (chunks : List String) (slots : List SlotDescriptor),
      noSlotB cs = true →
      scanText fuel cs buf chunks slots =
        .ok ⟨(if buf ++ decodedText cs = [] then chunks
              else chunks ++ [String.mk (buf ++ decodedText cs)]), slots⟩ := by
  intro fuel
  induction fuel with
  | zero => intro cs h; omega
  | succ fuel ih =>
    intro cs hlen buf chunks slots hns
    cases cs with
    | nil =>
      simp only [decodedText_nil, List.append_nil]
      rfl
    | cons c rest =>
      simp only [scanText]
      by_cases hc : c = '\\'
      · subst hc
        rw [if_pos rfl]
        cases rest with
        | nil =>
          show scanText fuel [] (buf ++ ['\\']) chunks slots = _
          rw [ih [] (by simp only [List.length_cons, List.length_nil] at hlen ⊢; omega)
            (buf ++ ['\\']) chunks slots rfl]
          simp only [decodedText_nil, decodedText_lone, List.append_nil]
        | cons c2 rest2 =>
          have hns2 : noSlotB rest2 = true := hns
          show scanText fuel rest2 (buf ++ [decodeTextEscape c2]) chunks slots = _
          rw [ih rest2 (by simp only [List.length_cons] at hlen ⊢; omega)
            (buf ++ [decodeTextEscape c2]) chunks slots hns2]
          simp only [decodedText_esc, List.append_assoc, List.singleton_append]
      · rw [if_neg hc]
        have hsplit : c ≠ braceOpen ∧ noSlotB rest = true := by
          rw [noSlotB_other c rest hc] at hns
          simpa using hns
        rw [if_neg hsplit.1]
        rw [ih rest (by simp only [List.length_cons] at hlen ⊢; omega)
          (buf ++ [c]) chunks slots hsplit.2]
        simp only [decodedText_other c rest hc, List.append_assoc, List.singleton_append]

theorem render_missing_key_check (t : Parsed) (record : Record) (p : Option TemplatePolicy)
    (h : ∀ s ∈ t.slots, hasKey record s.name = true →
      (slotValue (resolvePolicy p) record s).isOk = true) :
    match t.slots.find? (fun s => !(hasKey record s.name)) with
    | some s =>
      renderParsed t record p = .error ("Missing value for slot \"" ++ s.name ++ "\"")
    | none => (renderParsed t record p).isOk = true := by
  have hmain := missing_key_first_error (resolvePolicy p) record t.slots h
  cases hfind : t.slots.find? (fun s => !(hasKey record s.name)) with
  | some s =>
    rw [hfind] at hmain
    simp only at hmain
    unfold renderParsed
    simp only []
    rw [hmain]
    rfl
  | none =>
    rw [hfind] at hmain
    simp only at hmain
    unfold renderParsed
    simp only []
    cases he : evaluate (resolvePolicy p) record t.slots with
    | error e => rw [he] at hmain; cases hmain
    | ok vs => rfl

/-- C1: the claim states that evaluation threads the slot value through
all `k` filters of the parsed chain in source order.  The code
contradicts this (and its own documentation of left-to-right filter
chaining): `CompiledTemplate.evaluate` applies only the first filter of
the chain.  At the failing input `"{x|upper|lower}"` with `{x:"ab"}` the
parser stores the two-filter chain `upper, lower`, yet rendering yields
`"AB"` — only `upper` is applied — while threading the chain would yield
`lowerFilter "AB" = "ab"`.  The spec's `map`/`join` example raises
`Unknown filter "map"` under the built-in registry instead of producing
`"a, b"`. -/
theorem evaluate_applies_only_first_filter_of_chain :
    (parseTemplate "\x7bx|upper|lower\x7d").map
        (fun r => r.slots.map (fun s => s.filters.map (·.name))) =
      .ok [["upper", "lower"]] ∧
    (parseTemplate "\x7bx|upper|lower\x7d").map
        (fun r => renderParsed r [("x", .str "ab")] none) = .ok (.ok "AB") ∧
    lowerFilter (.str "AB") [] = .ok (.str "ab") ∧
    (parseTemplate "\x7bitems|map#i => $i.name$|join#\", \"\x7d").map
        (fun r => renderParsed r
          [("items", .arr [.obj [("name", .str "a")], .obj [("name", .str "b")]])] none) =
      .ok (.error "Unknown filter \"map\"") :=
  ⟨by decide, by decide, rfl, by decide⟩

/-- C2 counterexample: compiling `"{a}{b}"` stores zero chunks against
two slots, refuting the invariant `chunks.length = slots.length + 1`. -/
theorem chunks_length_invariant_counterexample :
    (parseTemplate "\x7ba\x7d\x7bb\x7d").map
        (fun r => (r.chunks.length, r.slots.length)) = .ok (0, 2) ∧
    (0 : Nat) ≠ 2 + 1 :=
  ⟨by decide, by decide⟩

/-- C2 (amended): for every template source that compiles,
`chunks.length ≤ slots.length + 1` (empty fragments are omitted), and
render output equals the chunk/value interleaving
`(chunk[0] ?? "") + v0 + (chunk[1] ?? "") + ...` where an absent chunk
position reads as the empty string. -/
theorem chunks_length_le_and_interleaving (s : String) (r : Parsed)
    (h : parseTemplate s = .ok r) :
    r.chunks.length ≤ r.slots.length + 1 ∧
    ∀ (record : Record) (p : Option TemplatePolicy) (vs : List Value),
      evaluate (resolvePolicy p) record r.slots = .ok vs →
      renderParsed r record p =
        .ok (interleaveOut (resolvePolicy p).asString r.chunks vs) :=
  ⟨(scanText_invariants _ _ _ _ _ _ h (Nat.le_refl 0)
      (fun c hc => absurd hc (List.not_mem_nil c))).1,
   fun record p vs hv => renderParsed_eq_interleave r record p vs hv⟩

/-- Witness for the amended C2 at the template `"a={a}"`. -/
theorem chunks_length_le_and_interleaving_witness :
    (⟨["a="], [⟨"a", none, [], []⟩]⟩ : Parsed).chunks.length ≤
      (⟨["a="], [⟨"a", none, [], []⟩]⟩ : Parsed).slots.length + 1 ∧
    renderParsed ⟨["a="], [⟨"a", none, [], []⟩]⟩ [("a", .num 1)] none =
      .ok (interleaveOut (resolvePolicy none).asString ["a="] [.num 1]) :=
  have h : parseTemplate "a=\x7ba\x7d" = .ok ⟨["a="], [⟨"a", none, [], []⟩]⟩ := by decide
  have hv : evaluate (resolvePolicy none) [("a", .num 1)]
      ([⟨"a", none, [], []⟩] : List SlotDescriptor) = .ok [.num 1] := rfl
  ⟨(chunks_length_le_and_interleaving _ _ h).1,
   (chunks_length_le_and_interleaving _ _ h).2 [("a", .num 1)] none [.num 1] hv⟩

/-- C3 counterexample: in the slot body `x|f#5 ,0` the unquoted argument
written with an ordinary (unescaped) trailing space before the comma is
stored as `"5 "`, not trimmed to `"5"`. -/
theorem unquoted_arg_trim_counterexample :
    (parseSlotBody "x|f#5 ,0".data).map (fun d => d.args) = .ok ["5 ", "0"] ∧
    ("5 " : String) ≠ "5" :=
  ⟨by decide, by decide⟩

/-- Witness for the amended C3 at the argument `"5 "`. -/
theorem unquoted_arg_escape_free_untrimmed_witness :
    ('\\' ∉ ("5 " : String).data) ∧ pushArgValue "5 " false = "5 " :=
  ⟨by decide, unquoted_arg_escape_free_untrimmed "5 " (by decide)⟩

/-- C4 counterexample: rendering `"{x|pad#5,0}"` with `{x:42}` produces
`"42000"`, not the claimed `"00042"`. -/
theorem pad_example_counterexample :
    (parseTemplate "\x7bx|pad#5,0\x7d").map
        (fun r => renderParsed r [("x", .num 42)] none) = .ok (.ok "42000") ∧
    ("42000" : String) ≠ "00042" :=
  ⟨by decide, by decide⟩

/-- C4 (amended): rendering `"{x|pad#5,0}"` with `{x:42}` produces
`"42000"` — `pad` appends the fill character after the stringified value
up to the target length. -/
theorem pad_appends_fill_example :
    (parseTemplate "\x7bx|pad#5,0\x7d").map
        (fun r => renderParsed r [("x", .num 42)] none) = .ok (.ok "42000") ∧
    padFilter (.num 42) ["5", "0"] = .ok (.str ("42" ++ "000")) :=
  ⟨by decide, rfl⟩

/-- C5 counterexample: with `"{a|bogus} {b}"` and record `{a:1}` the slot
`b` is missing, yet render raises `Unknown filter "bogus"` — an error
naming no slot; and with `"{x|bogus}"` and `{x:1}` no key is missing yet
render raises all the same, refuting the claimed equivalence as stated. -/
theorem missing_key_iff_counterexample :
    (parseTemplate "\x7ba|bogus\x7d \x7bb\x7d").map
        (fun r => (r.slots.map (·.name), hasKey [("a", .num 1)] "b",
          renderParsed r [("a", .num 1)] none)) =
      .ok (["a", "b"], false, .error "Unknown filter \"bogus\"") ∧
    (parseTemplate "\x7bx|bogus\x7d").map
        (fun r => renderParsed r [("x", .num 1)] none) =
      .ok (.error "Unknown filter \"bogus\"") :=
  ⟨by decide, by decide⟩

/-- Witness for the amended C5: `"{a} {b}"` with `{a:1}` raises the
missing-value error naming slot `b`; with `{a:null, b:undefined}` both
keys are present (a presence check, not a nullness check) and render
succeeds. -/
theorem render_missing_key_check_witness :
    renderParsed ⟨[" "], [⟨"a", none, [], []⟩, ⟨"b", none, [], []⟩]⟩
      [("a", .num 1)] none = .error "Missing value for slot \"b\"" ∧
    (renderParsed ⟨[" "], [⟨"a", none, [], []⟩, ⟨"b", none, [], []⟩]⟩
      [("a", .vnull), ("b", .undefined)] none).isOk = true := by
  constructor
  · exact render_missing_key_check ⟨[" "], [⟨"a", none, [], []⟩, ⟨"b", none, [], []⟩]⟩
      [("a", .num 1)] none (by decide)
  · exact render_missing_key_check ⟨[" "], [⟨"a", none, [], []⟩, ⟨"b", none, [], []⟩]⟩
      [("a", .vnull), ("b", .undefined)] none (by decide)

/-- C6: `tryRender` mirrors `render` on the same inputs: a successful
render becomes `{ok:true, value}`, a raised error becomes `{ok:false,
error}` with the same message (totality of `tryRender` is intrinsic to
the embedding: it returns a `TryResult` for every input). -/
theorem tryRender_mirrors_render_claim (t : Parsed) (record : Record)
    (p : Option TemplatePolicy) :
    (∀ s, renderParsed t record p = .ok s → tryRender t record p = .success s) ∧
    (∀ e, renderParsed t record p = .error e → tryRender t record p = .failure e) :=
  tryRender_mirrors_render t record p

/-- Witness for C6 at a succeeding and at a failing render. -/
theorem tryRender_mirrors_render_witness :
    tryRender ⟨["v="], [⟨"v", none, [], []⟩]⟩ [("v", .num 1)] none = .success "v=1" ∧
    tryRender ⟨["v="], [⟨"v", none, [], []⟩]⟩ [] none =
      .failure "Missing value for slot \"v\"" :=
  ⟨(tryRender_mirrors_render_claim ⟨["v="], [⟨"v", none, [], []⟩]⟩ [("v", .num 1)] none).1
      "v=1" (by decide),
   (tryRender_mirrors_render_claim ⟨["v="], [⟨"v", none, [], []⟩]⟩ [] none).2
      "Missing value for slot \"v\"" (by decide)⟩

/-- C7: given a non-empty path argument whose dot-separated segments are
all non-empty after trimming, the `path` filter returns the traversal
result (array segments as non-negative integer indices, object segments
as property keys, null/undefined short-circuiting to not-found), or the
second argument — defaulting to the empty string — when not found; a
missing path argument raises the documented fatal error. -/
theorem path_filter_traversal (v : Value) (p : String) (rest : List String)
    (hp : p ≠ "")
    (hsegs : (((splitDots p.data).map String.mk).map jsTrim).all (· ≠ "") = true) :
    pathFilter v (p :: rest) =
      .ok (match pathTraverse v (((splitDots p.data).map String.mk).map jsTrim) with
           | .undefined => .str ((rest.get? 0).getD "")
           | w => w) ∧
    pathFilter v [] = .error "path: missing property path argument" := by
  constructor
  · have hne : ¬((((splitDots p.data).map String.mk).map jsTrim).any (· = "") = true) := by
      simp only [List.all_eq_true, decide_eq_true_eq] at hsegs
      simp only [List.any_eq_true, decide_eq_true_eq, not_exists]
      intro x hx
      exact hsegs x hx.1 hx.2
    have hstep : pathFilter v (p :: rest) =
        if p = "" then .error "path: missing property path argument"
        else if (((splitDots p.data).map String.mk).map jsTrim).any (· = "") then
          .error ("path: invalid segment in \"" ++ p ++ "\"")
        else .ok (match pathTraverse v (((splitDots p.data).map String.mk).map jsTrim) with
                  | .undefined => .str ((rest.get? 0).getD "")
                  | w => w) := rfl
    rw [hstep, if_neg hp, if_neg hne]
  · rfl

/-- Witness for C7: `{user|path#profile.email,"n/a"}` with `{user:{}}`
renders `"n/a"` and with `{user:{profile:{email:"x@y"}}}` renders
`"x@y"`. -/
theorem path_filter_traversal_witness :
    pathFilter (.obj []) ["profile.email", "n/a"] = .ok (.str "n/a") ∧
    (parseTemplate "\x7buser|path#profile.email,\"n/a\"\x7d").map
        (fun r => renderParsed r [("user", .obj [])] none) = .ok (.ok "n/a") ∧
    (parseTemplate "\x7buser|path#profile.email,\"n/a\"\x7d").map
        (fun r => renderParsed r
          [("user", .obj [("profile", .obj [("email", .str "x@y")])])] none) =
      .ok (.ok "x@y") := by
  refine ⟨?_, by decide, by decide⟩
  exact (path_filter_traversal (.obj []) "profile.email" ["n/a"]
    (by decide) (by decide)).1

/-- C8: rendering `bind(t, B)` with the remaining record `R` under a
policy equals rendering `t` with the spread-merged record under the same
policy, for bound and remaining records with disjoint keys that together
cover the slots. -/
theorem bind_then_render_eq_render_merged (t : Parsed) (B R : Record)
    (p : Option TemplatePolicy)
    (_hdisj : ∀ e ∈ B, hasKey R e.1 = false)
    (_hcov : ∀ s ∈ t.slots, hasKey B s.name = true ∨ hasKey R s.name = true) :
    boundRender t B none R p = renderParsed t (mergeRecords B R) p := by
  cases p with
  | none => rfl
  | some pol => rfl

/-- Witness for C8: binding `{a:1}` on `"{a} {b}"` and rendering `{b:2}`
equals rendering the unbound template with the merged `{a:1, b:2}`. -/
theorem bind_then_render_eq_render_merged_witness :
    boundRender ⟨[" "], [⟨"a", none, [], []⟩, ⟨"b", none, [], []⟩]⟩
        [("a", .num 1)] none [("b", .num 2)] none =
      renderParsed ⟨[" "], [⟨"a", none, [], []⟩, ⟨"b", none, [], []⟩]⟩
        (mergeRecords [("a", .num 1)] [("b", .num 2)]) none ∧
    renderParsed ⟨[" "], [⟨"a", none, [], []⟩, ⟨"b", none, [], []⟩]⟩
        (mergeRecords [("a", .num 1)] [("b", .num 2)]) none = .ok " 12" :=
  ⟨bind_then_render_eq_render_merged ⟨[" "], [⟨"a", none, [], []⟩, ⟨"b", none, [], []⟩]⟩
      [("a", .num 1)] [("b", .num 2)] none (by decide) (by decide),
   by decide⟩

/-- C9: in text position a backslash followed by a recognised escape
character (backslash, open-brace, close-brace, n, r, t, b, f, v, 0,
single quote, double quote) decodes to that literal; a backslash before
any other character decodes to that character with the backslash
dropped; a lone backslash at end of input is kept; consequently every
slot-free source scans to its decoded text as the single chunk (or no
chunk when empty). -/
theorem text_escape_decoding :
    (decodeTextEscape '\\' = '\\' ∧ decodeTextEscape braceOpen = braceOpen ∧
     decodeTextEscape braceClose = braceClose ∧ decodeTextEscape 'n' = '\n' ∧
     decodeTextEscape 'r' = '\r' ∧ decodeTextEscape 't' = '\t' ∧
     decodeTextEscape 'b' = Char.ofNat 8 ∧ decodeTextEscape 'f' = Char.ofNat 12 ∧
     decodeTextEscape 'v' = Char.ofNat 11 ∧ decodeTextEscape '0' = Char.ofNat 0 ∧
     decodeTextEscape '\'' = '\'' ∧ decodeTextEscape '"' = '"') ∧
    (∀ c : Char, c ∉ ['n', 'r', 't', 'b', 'f', 'v', '0', '\\',
        braceOpen, braceClose, '"', '\''] → decodeTextEscape c = c) ∧
    (∀ s : String, noSlotB s.data = true →
      parseTemplate s =
        .ok ⟨(if decodedText s.data = [] then []
              else [String.mk (decodedText s.data)]), []⟩) := by
  refine ⟨by decide, ?_, ?_⟩
  · intro c hc
    simp only [List.mem_cons, List.not_mem_nil, or_false, not_or] at hc
    obtain ⟨h1, h2, h3, h4, h5, h6, h7, h8, h9, h10, h11, h12⟩ := hc
    unfold decodeTextEscape
    rw [if_neg h1, if_neg h2, if_neg h3, if_neg h4, if_neg h5, if_neg h6, if_neg h7,
      if_neg h8, if_neg h9, if_neg h10, if_neg h11, if_neg h12]
  · intro s hns
    have hmain := scanText_noSlot (s.length + 1) s.data (Nat.lt_succ_self s.data.length)
      [] [] [] hns
    rw [List.nil_append] at hmain
    exact hmain

/-- Witness for C9: the unrecognised escape `\,` decodes to the comma
alone, and `"a\nb\"` scans to the chunk `"a<newline>b\"` keeping the
lone trailing backslash. -/
theorem text_escape_decoding_witness :
    decodeTextEscape ',' = ',' ∧
    parseTemplate "a\\nb\\" = .ok ⟨["a\nb\\"], []⟩ := by
  constructor
  · exact text_escape_decoding.2.1 ',' (by decide)
  · exact text_escape_decoding.2.2 "a\\nb\\" (by decide)

/-- C10: compilation never stores an empty chunk (so `chunks.length` can
fall below `slots.length + 1`, e.g. `"{a}{b}"` compiles to no chunks and
two slots), and render reads an absent chunk position as the empty
string, producing exactly the stored-chunk/value interleaving. -/
theorem no_empty_chunks_and_getD_interleaving (s : String) (r : Parsed)
    (h : parseTemplate s = .ok r) :
    (∀ c ∈ r.chunks, c ≠ "") ∧
    ∀ (record : Record) (p : Option TemplatePolicy) (vs : List Value),
      evaluate (resolvePolicy p) record r.slots = .ok vs →
      renderParsed r record p =
        .ok (interleaveOut (resolvePolicy p).asString r.chunks vs) :=
  ⟨(scanText_invariants _ _ _ _ _ _ h (Nat.le_refl 0)
      (fun c hc => absurd hc (List.not_mem_nil c))).2,
   fun record p vs hv => renderParsed_eq_interleave r record p vs hv⟩

/-- Witness for C10 at `"{a}{b}"`: an empty chunk list with two slots,
no stored chunk empty, and the interleaving equation for the render. -/
theorem no_empty_chunks_and_getD_interleaving_witness :
    parseTemplate "\x7ba\x7d\x7bb\x7d" =
      .ok ⟨[], [⟨"a", none, [], []⟩, ⟨"b", none, [], []⟩]⟩ ∧
    (∀ c ∈ (⟨[], [⟨"a", none, [], []⟩, ⟨"b", none, [], []⟩]⟩ : Parsed).chunks, c ≠ "") ∧
    renderParsed ⟨[], [⟨"a", none, [], []⟩, ⟨"b", none, [], []⟩]⟩
        [("a", .num 1), ("b", .num 2)] none =
      .ok (interleaveOut (resolvePolicy none).asString [] [.num 1, .num 2]) :=
  have h : parseTemplate "\x7ba\x7d\x7bb\x7d" =
      .ok ⟨[], [⟨"a", none, [], []⟩, ⟨"b", none, [], []⟩]⟩ := by decide
  have hv : evaluate (resolvePolicy none) [("a", .num 1), ("b", .num 2)]
      ([⟨"a", none, [], []⟩, ⟨"b", none, [], []⟩] : List SlotDescriptor) =
      .ok [.num 1, .num 2] := rfl
  ⟨h, (no_empty_chunks_and_getD_interleaving _ _ h).1,
   (no_empty_chunks_and_getD_interleaving _ _ h).2 [("a", .num 1), ("b", .num 2)] none
     [.num 1, .num 2] hv⟩
